import Mathlib

/-!
Verification of the local memory store of `code-context-pro-memory`.

The development shallowly embeds the memory subsystem of the repository:
`MemoryEngine` (src/src/memory/MemoryEngine.ts) is modelled as pure
functions over an explicit `Store` state (the SQLite database), and the
documented ranking function `calculateRelevance` (the repository's search
documentation) is modelled over rationals.

Modelling conventions:
* SQL tables become Lean lists of row structures; a table has no intrinsic
  order, and every ordered read in the source carries an `ORDER BY`, which
  is modelled explicitly.
* Timestamps are natural numbers (milliseconds since the epoch).  The
  source stores ISO-8601 strings produced by `Date.toISOString()`; for a
  fixed-width ISO format, lexicographic string comparison agrees with the
  numeric order, so `≤` on `Nat` is a faithful model of the SQL `>=` on
  the stored text timestamps.
* JavaScript number arithmetic in the scoring function is modelled over
  `ℚ` (the literal `0.1` is written `1 / 10`).
* JavaScript truthiness tests (`if (options.type)`, `if (query)`,
  `if (options.limit)`) are modelled explicitly: the empty string and the
  integer zero are falsy.
* `sqlite3` errors and thrown exceptions become `Except` results; an
  operation that fails after partial work returns the partially updated
  state alongside the error.
-/

namespace CodeContext

/-! ### String helpers

`String` is handled through its character list so that every operation
kernel-evaluates on concrete inputs. -/

/-- Bool-valued infix test on lists, the model of JavaScript
`String.prototype.includes` and of a SQLite `LIKE '%pat%'` match
(after the appropriate case folding). -/
def listIsInfix [BEq α] (pat : List α) : List α → Bool
  | [] => pat.isEmpty
  | a :: as => pat.isPrefixOf (a :: as) || listIsInfix pat as

/-- Case-sensitive substring test, the model of JavaScript `includes`. -/
def strContains (hay pat : String) : Bool :=
  listIsInfix pat.data hay.data

/-- ASCII lower-casing, the model of `toLowerCase` on the ASCII fragment
(the repository's queries and contents are ASCII). -/
def lowerStr (s : String) : String :=
  ⟨s.data.map Char.toLower⟩

/-- Case-insensitive substring test: models
`hay.toLowerCase().includes(pat.toLowerCase())` and also the default
(ASCII case-insensitive) SQLite `LIKE '%pat%'`. -/
def strContainsCI (hay pat : String) : Bool :=
  strContains (lowerStr hay) (lowerStr pat)

/-- Characters after the last `'/'`, used to model `path.basename`. -/
def afterLastSlash (l : List Char) : List Char :=
  l.foldl (fun acc c => if c = '/' then [] else acc ++ [c]) []

/-- Model of `path.basename` for forward-slash paths. -/
def basename (p : String) : String :=
  ⟨afterLastSlash p.data⟩

/-- Prefix of at most `n` characters, the model of
`content.substring(0, n)`. -/
def takeStr (s : String) (n : Nat) : String :=
  ⟨s.data.take n⟩

/-! ### Data model (the SQLite schema of `initDatabase`) -/

/-- A row of the `projects` table. -/
structure ProjectRow where
  id : String
  name : String
  path : String
  created_at : Nat
  last_active : Nat
  total_files : Nat
  total_lines : Nat
  complexity : String
deriving DecidableEq

/-- A row of the `files` table (`path` is the primary key). -/
structure FileRow where
  path : String
  language : String
  size : Nat
  lines : Nat
  last_modified : Nat
  hash : String
deriving DecidableEq

/-- A row of the `patterns` table (`id` is the primary key).
`examples` keeps the `JSON.stringify` text, which the engine never
re-reads. -/
structure PatternRow where
  id : String
  type : String
  name : String
  description : String
  frequency : Nat
  confidence : ℚ
  examples : String
  file : String
  line_start : Nat
  line_end : Nat
deriving DecidableEq

/-- A row of the `memories` table. `tags` and `metadata` are stored as
JSON text in the source; the model keeps them structured since the engine
round-trips them through `JSON.stringify`/`JSON.parse` unchanged. -/
structure MemoryRow where
  id : String
  type : String
  content : String
  context : Option String
  created_at : Nat
  tags : List String
  metadata : List (String × String)
deriving DecidableEq

/-- A row of the `activities` table (the autoincrement `id` column is
never read back by the engine and is omitted). -/
structure ActivityRow where
  type : String
  description : String
  created_at : Nat
deriving DecidableEq

/-- The whole database state. -/
structure Store where
  projects : List ProjectRow
  files : List FileRow
  patterns : List PatternRow
  memories : List MemoryRow
  activities : List ActivityRow
deriving DecidableEq

/-- The freshly created schema: all tables empty. -/
def emptyStore : Store :=
  ⟨[], [], [], [], []⟩

/-- The world visible to `initProject`: the database file (`none` while
the project is uninitialized) and the project root's `.gitignore`
(`none` when the file does not exist). -/
structure World where
  store : Option Store
  gitignore : Option String
deriving DecidableEq

/-- Error taxonomy of the engine's thrown exceptions. -/
inductive EngineError where
  | alreadyInitialized
  | storageError
  | notFound
deriving DecidableEq

/-- `logActivity(type, description)`: appends one `activities` row
stamped with the current time. -/
def logActivity (s : Store) (t d : String) (now : Nat) : Store :=
  { s with activities := s.activities ++ [⟨t, d, now⟩] }

/-! ### The documented ranking (`rankResults` / `calculateRelevance`) -/

/-- The `MemoryEntry` shape used by the documented ranking functions. -/
structure MemoryEntry where
  id : String
  type : String
  content : String
  context : Option String
  timestamp : Nat
deriving DecidableEq

/-- The `typeScores` object literal lookup with its `|| 0` fallback:
`{ decision: 3, pattern: 2, conversation: 1, issue: 2 }[t] || 0`. -/
def typeScores (t : String) : ℚ :=
  if t = "decision" then 3
  else if t = "pattern" then 2
  else if t = "conversation" then 1
  else if t = "issue" then 2
  else 0

/-- `calculateRelevance(query, memory)` from the repository's search
documentation, with `Date.now()` passed explicitly (milliseconds). -/
def calculateRelevance (now : Nat) (query : String) (m : MemoryEntry) : ℚ :=
  let score : ℚ := 0
  let score := score + (if strContainsCI m.content query then 10 else 0)
  let daysSince : ℚ := ((now : ℚ) - (m.timestamp : ℚ)) / (1000 * 60 * 60 * 24)
  let score := score + max 0 (5 - daysSince * (1 / 10))
  let score := score + typeScores m.type
  score

/-- View of a retrieved memory row as the ranking's entry shape. -/
def entryOfRow (m : MemoryRow) : MemoryEntry :=
  ⟨m.id, m.type, m.content, m.context, m.created_at⟩

/-! ### `searchMemories` -/

/-- The optional search options object. -/
structure SearchOptions where
  type : Option String := none
  limit : Option Int := none
  since : Option Nat := none

/-- The `WHERE` clause assembled by `searchMemories`.  `if (options.type)`
and `if (query)` are JavaScript truthiness tests, so an empty string
disables the corresponding `AND` clause; a `NULL` `context` makes
`context LIKE ?` false. -/
def matchesWhere (query : Option String) (opts : SearchOptions) (m : MemoryRow) : Bool :=
  (match opts.type with
   | some t => if t = "" then true else m.type == t
   | none => true)
  && (match query with
      | some q =>
        if q = "" then true
        else strContainsCI m.content q
          || (match m.context with
              | some c => strContainsCI c q
              | none => false)
      | none => true)
  && (match opts.since with
      | some sv => decide (sv ≤ m.created_at)
      | none => true)

/-- `ORDER BY created_at DESC`. -/
def createdDesc (a b : MemoryRow) : Prop :=
  b.created_at ≤ a.created_at

instance : DecidableRel createdDesc :=
  fun a b => Nat.decLe b.created_at a.created_at

/-- `LIMIT n` in SQLite: a negative limit means no upper bound. -/
def sqlLimit (l : List MemoryRow) (n : Int) : List MemoryRow :=
  if n < 0 then l else l.take n.toNat

/-- `searchMemories(projectPath, query, options)`: filter, order newest
first, and apply the limit when `options.limit` is truthy. -/
def searchMemories (s : Store) (query : Option String) (opts : SearchOptions) :
    List MemoryRow :=
  let rows := (s.memories.filter (matchesWhere query opts)).insertionSort createdDesc
  match opts.limit with
  | some n => if n = 0 then rows else sqlLimit rows n
  | none => rows

/-- The `recall` CLI option `-l, --limit <limit>` carries the commander
default `'10'`, so an absent flag reaches `searchMemories` as the parsed
integer `10`. -/
def recallLimit (larg : Option Int) : Int :=
  larg.getD 10

/-- The `recall` command's call into `searchMemories`. -/
def recallCmd (s : Store) (query : Option String) (t : Option String) (larg : Option Int) :
    List MemoryRow :=
  searchMemories s query { type := t, limit := some (recallLimit larg), since := none }

/-! ### `storeMemory` and the `remember` command -/

/-- The caller-supplied `Omit<Memory, 'id'>` payload of `storeMemory`.
`timestamp` is a required field of the `Memory` type; `tags` and
`metadata` default through `|| []` / `|| {}` at insert time. -/
structure MemoryInput where
  type : String
  content : String
  context : Option String := none
  timestamp : Nat
  tags : Option (List String) := none
  metadata : Option (List (String × String)) := none

/-- `storeMemory(projectPath, memory)`: inserts one `memories` row with a
fresh id (passed explicitly here since `uuidv4()` is nondeterministic)
and logs a `memory` activity.  The source performs no validation of
`content`. -/
def storeMemory (s : Store) (newId : String) (m : MemoryInput) (now : Nat) : Store :=
  let s := { s with memories := s.memories ++
    [⟨newId, m.type, m.content, m.context, m.timestamp, m.tags.getD [], m.metadata.getD []⟩] }
  logActivity s "memory" ("Stored " ++ m.type ++ ": " ++ takeStr m.content 50 ++ "...") now

/-- The `remember` command's call into `storeMemory`: it passes
`timestamp: new Date()`, i.e. the current time. -/
def rememberCmd (s : Store) (newId : String) (t : String) (content : String)
    (ctx : Option String) (now : Nat) : Store :=
  storeMemory s newId { type := t, content := content, context := ctx, timestamp := now } now

/-! ### `storeProjectAnalysis` (scan ingestion) -/

/-- A scanner-produced file record. -/
structure FileInput where
  path : String
  language : String
  size : Nat
  lines : Nat
  lastModified : Nat
  hash : String

/-- A scanner-produced pattern record. -/
structure PatternInput where
  id : String
  type : String
  name : String
  description : String
  frequency : Nat
  confidence : ℚ
  examples : List String
  file : String
  lineStart : Nat
  lineEnd : Nat

/-- The scanner's aggregate metrics. -/
structure Metrics where
  totalFiles : Nat
  totalLines : Nat
  complexity : String

/-- The `ProjectAnalysis` payload consumed by `storeProjectAnalysis`
(architecture and dependency details are not persisted by the engine). -/
structure ProjectAnalysis where
  files : List FileInput
  patterns : List PatternInput
  metrics : Metrics

/-- `INSERT OR REPLACE` keyed by `key`: replaces the row with the same
key in place when one exists, otherwise appends. -/
def upsertBy (key : α → String) (rows : List α) (row : α) : List α :=
  if rows.any (fun r => key r == key row) then
    rows.map (fun r => if key r == key row then row else r)
  else
    rows ++ [row]

/-- Whether some row of `rows` has key `x`. -/
def hasKey (key : α → String) (rows : List α) (x : String) : Bool :=
  rows.any (fun r => key r == x)

/-- The `files` row written for a scanned file. -/
def fileRowOf (f : FileInput) : FileRow :=
  ⟨f.path, f.language, f.size, f.lines, f.lastModified, f.hash⟩

/-- The `patterns` row written for a scanned pattern (`examples` is
serialized; the model keeps the joined text opaque). -/
def patternRowOf (q : PatternInput) : PatternRow :=
  ⟨q.id, q.type, q.name, q.description, q.frequency, q.confidence,
    String.intercalate "," q.examples, q.file, q.lineStart, q.lineEnd⟩

/-- `storeProjectAnalysis(projectPath, analysis)`: upserts every file by
`path` and every pattern by `id`, refreshes the project's cached
metrics, and logs a `scan` activity. -/
def storeProjectAnalysis (s : Store) (a : ProjectAnalysis) (p : String) (now : Nat) : Store :=
  let files := (a.files.map fileRowOf).foldl (upsertBy (fun r => r.path)) s.files
  let patterns := (a.patterns.map patternRowOf).foldl (upsertBy (fun r => r.id)) s.patterns
  let projects := s.projects.map (fun pr =>
    if pr.path == p then
      { pr with last_active := now, total_files := a.metrics.totalFiles,
                total_lines := a.metrics.totalLines, complexity := a.metrics.complexity }
    else pr)
  logActivity { s with files := files, patterns := patterns, projects := projects }
    "scan"
    ("Analyzed " ++ toString a.files.length ++ " files, found "
      ++ toString a.patterns.length ++ " patterns") now

/-! ### `clearMemory` -/

/-- `clearMemory(projectPath)`: issues `DELETE FROM memories`,
`DELETE FROM patterns`, `DELETE FROM files`, `DELETE FROM activities`
(there is no `DELETE FROM projects`), then logs a `clear` activity. -/
def clearMemory (s : Store) (now : Nat) : Store :=
  let s := { s with memories := [] }
  let s := { s with patterns := [] }
  let s := { s with files := [] }
  let s := { s with activities := [] }
  logActivity s "clear" "All memory data cleared" now

/-! ### `initProject` -/

/-- The `.gitignore` text appended by `initProject`. -/
def gitignoreEntry : String := "\n# CodeContext Memory\n.codecontext/\n"

/-- The `.gitignore` side effect of `initProject`: append the ignore
entry when the file exists and does not already mention
`.codecontext`. -/
def updateGitignore (g : Option String) : Option String :=
  match g with
  | none => none
  | some txt =>
    if strContains txt ".codecontext" then some txt
    else some (txt ++ gitignoreEntry)

/-- `initProject(projectPath, force)`.  Without `force`, an existing
database file raises the already-initialized error.  Otherwise the
schema is (re)created with `CREATE TABLE IF NOT EXISTS` — which keeps
every existing row — and a fresh project row is inserted; when a project
row with the same path already exists, the insert violates the
`UNIQUE(path)` constraint and the call fails there, before the config
file, `.gitignore` and activity-log steps.  Returns the call's result
together with the on-disk state after the call. -/
def initProject (w : World) (p : String) (force : Bool) (newId : String) (now : Nat) :
    Except EngineError Unit × World :=
  if !force && w.store.isSome then
    (Except.error EngineError.alreadyInitialized, w)
  else
    let s0 := w.store.getD emptyStore
    if s0.projects.any (fun pr => pr.path == p) then
      (Except.error EngineError.storageError, { w with store := some s0 })
    else
      let s1 := { s0 with projects := s0.projects ++
        [⟨newId, basename p, p, now, now, 0, 0, "unknown"⟩] }
      let g := updateGitignore w.gitignore
      let s2 := logActivity s1 "init" "Project initialized with memory capabilities" now
      (Except.ok (), { store := some s2, gitignore := g })

/-! ### `getProjectStatus` and `exportMemory` -/

/-- `ORDER BY created_at DESC` on activities. -/
def createdDescAct (a b : ActivityRow) : Prop :=
  b.created_at ≤ a.created_at

instance : DecidableRel createdDescAct :=
  fun a b => Nat.decLe b.created_at a.created_at

/-- The `ProjectStatus` summary (`memorySize` is the database file's
on-disk size, a filesystem property outside the store model). -/
structure ProjectStatus where
  projectId : String
  projectName : String
  createdAt : Nat
  lastActive : Nat
  filesTracked : Nat
  conversations : Nat
  patterns : Nat
  recentActivity : List ActivityRow
deriving DecidableEq

/-- `getProjectStatus(projectPath)`: fails when no project row matches
the path (or the database file is missing, which the `Option Store`
caller handles). -/
def getProjectStatus (s : Store) (p : String) : Except EngineError ProjectStatus :=
  match s.projects.find? (fun pr => pr.path == p) with
  | none => Except.error EngineError.notFound
  | some pr =>
    Except.ok
      { projectId := pr.id
        projectName := pr.name
        createdAt := pr.created_at
        lastActive := pr.last_active
        filesTracked := s.files.length
        conversations := (s.memories.filter (fun m => m.type == "conversation")).length
        patterns := s.patterns.length
        recentActivity := (s.activities.insertionSort createdDescAct).take 10 }

/-- The object serialized by `exportMemory` in `'json'` format. -/
structure ExportData where
  project : ProjectStatus
  memories : List MemoryRow
  patterns : List PatternRow
  files : List FileRow
  exportedAt : Nat

/-- `exportMemory(projectPath, 'json')`: gathers the status, the full
memory list (an unfiltered, unlimited `searchMemories` call), all
patterns and all files. -/
def exportMemory (s : Store) (p : String) (now : Nat) : Except EngineError ExportData :=
  match getProjectStatus s p with
  | Except.error e => Except.error e
  | Except.ok st =>
    Except.ok
      { project := st
        memories := searchMemories s none {}
        patterns := s.patterns
        files := s.files
        exportedAt := now }

/-! ### A JSON value model for the export round trip -/

/-- JSON values, as produced by `JSON.stringify` of the export object. -/
inductive Jx where
  | null : Jx
  | str : String → Jx
  | num : Int → Jx
  | arr : List Jx → Jx
  | obj : List (String × Jx) → Jx

/-- Serialization of one activity row. -/
def encodeActivity (a : ActivityRow) : Jx :=
  Jx.obj [("timestamp", Jx.num a.created_at), ("description", Jx.str a.description),
          ("type", Jx.str a.type)]

/-- Serialization of the status summary. -/
def encodeStatus (st : ProjectStatus) : Jx :=
  Jx.obj [("projectId", Jx.str st.projectId), ("projectName", Jx.str st.projectName),
          ("createdAt", Jx.num st.createdAt), ("lastActive", Jx.num st.lastActive),
          ("filesTracked", Jx.num st.filesTracked),
          ("conversations", Jx.num st.conversations),
          ("patterns", Jx.num st.patterns),
          ("recentActivity", Jx.arr (st.recentActivity.map encodeActivity))]

/-- Serialization of one memory object (a `Date` serializes to its ISO
string, modelled by the numeric timestamp). -/
def encodeMemory (m : MemoryRow) : Jx :=
  Jx.obj [("id", Jx.str m.id), ("type", Jx.str m.type), ("content", Jx.str m.content),
          ("context", match m.context with | none => Jx.null | some c => Jx.str c),
          ("timestamp", Jx.num m.created_at),
          ("tags", Jx.arr (m.tags.map Jx.str)),
          ("metadata", Jx.obj (m.metadata.map (fun kv => (kv.1, Jx.str kv.2))))]

/-- Serialization of one pattern row. -/
def encodePattern (q : PatternRow) : Jx :=
  Jx.obj [("id", Jx.str q.id), ("type", Jx.str q.type), ("name", Jx.str q.name),
          ("description", Jx.str q.description), ("frequency", Jx.num q.frequency),
          ("examples", Jx.str q.examples), ("file", Jx.str q.file),
          ("line_start", Jx.num q.line_start), ("line_end", Jx.num q.line_end)]

/-- Serialization of one file row. -/
def encodeFile (f : FileRow) : Jx :=
  Jx.obj [("path", Jx.str f.path), ("language", Jx.str f.language),
          ("size", Jx.num f.size), ("lines", Jx.num f.lines),
          ("last_modified", Jx.num f.last_modified), ("hash", Jx.str f.hash)]

/-- `JSON.stringify(data)` of the export object literal: the five keys
appear in the literal's order. -/
def encodeExport (d : ExportData) : Jx :=
  Jx.obj [("project", encodeStatus d.project),
          ("memories", Jx.arr (d.memories.map encodeMemory)),
          ("patterns", Jx.arr (d.patterns.map encodePattern)),
          ("files", Jx.arr (d.files.map encodeFile)),
          ("exportedAt", Jx.num d.exportedAt)]

/-- Top-level keys of a JSON object. -/
def topKeys : Jx → List String
  | Jx.obj l => l.map (fun kv => kv.1)
  | _ => []

/-- Field lookup in a JSON object. -/
def lookupKey (j : Jx) (k : String) : Option Jx :=
  match j with
  | Jx.obj l => (l.find? (fun kv => kv.1 == k)).map (fun kv => kv.2)
  | _ => none

/-- Reading the content, type and context fields back out of one
serialized memory object. -/
def decodeMemoryFields (j : Jx) : Option (String × String × Option String) :=
  match lookupKey j "content", lookupKey j "type", lookupKey j "context" with
  | some (Jx.str c), some (Jx.str t), some ctx =>
    some (c, t, match ctx with | Jx.null => none | Jx.str s => some s | _ => none)
  | _, _, _ => none

/-- Decoding a serialized memory array element by element. -/
def decodeMemoriesList : List Jx → Option (List (String × String × Option String))
  | [] => some []
  | j :: js =>
    match decodeMemoryFields j, decodeMemoriesList js with
    | some x, some xs => some (x :: xs)
    | _, _ => none

/-- Parsing the memory entries back out of an exported JSON value. -/
def parseMemories (j : Jx) : Option (List (String × String × Option String)) :=
  match lookupKey j "memories" with
  | some (Jx.arr ms) => decodeMemoriesList ms
  | _ => none

/-- The content/type/context projection of a stored memory row. -/
def memoryFields (m : MemoryRow) : String × String × Option String :=
  (m.content, m.type, m.context)

/-! ### Concrete scenario states used by witnesses and counterexamples -/

/-- A memory entry created at time 0, used to evaluate the scoring
formula. -/
def c1m : MemoryEntry :=
  ⟨"i1", "decision", "we use alpha here", none, 0⟩

/-- A fresh conversation memory matching query `q`. -/
def c2A : MemoryRow :=
  ⟨"a", "conversation", "x q y", none, 86400000, [], []⟩

/-- A one-day-old decision memory matching query `q`. -/
def c2B : MemoryRow :=
  ⟨"b", "decision", "q", none, 0, [], []⟩

/-- A store holding the two memories above. -/
def c2Store : Store :=
  ⟨[], [], [], [c2B, c2A], []⟩

/-- A store with a single decision memory. -/
def c3Store : Store :=
  ⟨[], [], [], [⟨"m1", "decision", "hello", none, 100, [], []⟩], []⟩

/-- A store with a single memory, for the limit counterexample. -/
def c4Store : Store :=
  ⟨[], [], [], [⟨"m1", "note", "hello", none, 100, [], []⟩], []⟩

/-- A store with three memories, for the limit witness. -/
def c4wStore : Store :=
  ⟨[], [], [],
   [⟨"m1", "note", "u", none, 1, [], []⟩, ⟨"m2", "note", "v", none, 2, [], []⟩,
    ⟨"m3", "note", "w", none, 3, [], []⟩], []⟩

/-- A pre-existing activity row. -/
def c5act : ActivityRow :=
  ⟨"init", "Project initialized with memory capabilities", 1⟩

/-- A populated store whose activity log and project row the clear
operation is claimed to treat differently than it does. -/
def c5Store : Store :=
  ⟨[⟨"pid", "p", "/p", 1, 1, 0, 0, "unknown"⟩],
   [⟨"a.ts", "typescript", 10, 2, 1, "h"⟩], [],
   [⟨"m", "decision", "x", none, 2, [], []⟩], [c5act]⟩

/-- The world state right after a fresh initialization at `/p`. -/
def c6w1 : World :=
  (initProject ⟨none, none⟩ "/p" false "pid" 100).2

/-- The store after additionally remembering one decision. -/
def c6s2 : Store :=
  storeMemory (c6w1.store.getD emptyStore) "mid"
    { type := "decision", content := "use redis", timestamp := 200 } 200

/-- The world holding that store. -/
def c6w2 : World :=
  { c6w1 with store := some c6s2 }

/-- A store with one project row and two memories, for the export
witness. -/
def c9Store : Store :=
  ⟨[⟨"pid", "p", "/p", 1, 1, 0, 0, "unknown"⟩], [], [],
   [⟨"m1", "decision", "a", none, 3, [], []⟩,
    ⟨"m2", "note", "b", some "ctx", 5, [], []⟩], []⟩

/-! ### Theorems -/

/-- Unfolding of the accumulator-style scoring function into one sum. -/
theorem calculateRelevance_eq (now : Nat) (q : String) (m : MemoryEntry) :
    calculateRelevance now q m
      = (if strContainsCI m.content q then (10 : ℚ) else 0)
        + max 0 (5 - ((now : ℚ) - (m.timestamp : ℚ)) / (1000 * 60 * 60 * 24) * (1 / 10))
        + typeScores m.type := by
  unfold calculateRelevance
  ring

/-- Claim C1: for every memory and non-empty query, the relevance score
is the sum of exactly three additive terms — `+10` for a
case-insensitive substring match of the full query in the content, a
recency bonus `max 0 (5 - daysSinceCreation / 10)` that is zero from 50
days on and never negative, and a type weight of 3 for `decision`, 2 for
`pattern` or `issue`, 1 for `conversation`, 0 otherwise. -/
theorem calculateRelevance_three_terms (now : Nat) (q : String) (m : MemoryEntry)
    (_hq : q ≠ "") :
    calculateRelevance now q m
      = (if strContainsCI m.content q then (10 : ℚ) else 0)
        + max 0 (5 - ((now : ℚ) - (m.timestamp : ℚ)) / (1000 * 60 * 60 * 24) * (1 / 10))
        + (if m.type = "decision" then 3
           else if m.type = "pattern" ∨ m.type = "issue" then 2
           else if m.type = "conversation" then 1
           else 0)
    ∧ (0 : ℚ) ≤ max 0 (5 - ((now : ℚ) - (m.timestamp : ℚ)) / (1000 * 60 * 60 * 24) * (1 / 10))
    ∧ (50 ≤ ((now : ℚ) - (m.timestamp : ℚ)) / (1000 * 60 * 60 * 24) →
        max 0 (5 - ((now : ℚ) - (m.timestamp : ℚ)) / (1000 * 60 * 60 * 24) * (1 / 10)) = 0) := by
  refine ⟨?_, le_max_left 0 _, ?_⟩
  · rw [calculateRelevance_eq]
    congr 1
    unfold typeScores
    by_cases h1 : m.type = "decision" <;>
      by_cases h2 : m.type = "pattern" <;>
        by_cases h3 : m.type = "conversation" <;>
          by_cases h4 : m.type = "issue" <;>
            simp_all
  · intro h
    apply max_eq_left
    linarith

/-- Witness for C1 at `now = 0`, query `"alpha"`, memory `c1m`. -/
theorem calculateRelevance_three_terms_witness :
    ("alpha" : String) ≠ "" ∧
    (calculateRelevance 0 "alpha" c1m
      = (if strContainsCI c1m.content "alpha" then (10 : ℚ) else 0)
        + max 0 (5 - (((0 : Nat) : ℚ) - (c1m.timestamp : ℚ)) / (1000 * 60 * 60 * 24) * (1 / 10))
        + (if c1m.type = "decision" then 3
           else if c1m.type = "pattern" ∨ c1m.type = "issue" then 2
           else if c1m.type = "conversation" then 1
           else 0)
    ∧ (0 : ℚ) ≤ max 0 (5 - (((0 : Nat) : ℚ) - (c1m.timestamp : ℚ)) / (1000 * 60 * 60 * 24) * (1 / 10))
    ∧ (50 ≤ (((0 : Nat) : ℚ) - (c1m.timestamp : ℚ)) / (1000 * 60 * 60 * 24) →
        max 0 (5 - (((0 : Nat) : ℚ) - (c1m.timestamp : ℚ)) / (1000 * 60 * 60 * 24) * (1 / 10)) = 0)) :=
  ⟨by decide, calculateRelevance_three_terms 0 "alpha" c1m (by decide)⟩

/-- Claim C2 counterexample: on a concrete store, a search call returns
a list that is not in descending relevance order — the executed
`searchMemories` orders by creation time only and never applies the
documented scoring. -/
theorem searchMemories_not_relevance_sorted :
    ¬ ((searchMemories c2Store (some "q") {}).Pairwise
        (fun a b => calculateRelevance 86400000 "q" (entryOfRow b)
          ≤ calculateRelevance 86400000 "q" (entryOfRow a))) := by
  intro hp
  have hlist : searchMemories c2Store (some "q") {} = [c2A, c2B] := by decide
  rw [hlist] at hp
  have h := (List.pairwise_cons.mp hp).1 c2B (List.mem_cons_self _ _)
  have hA : calculateRelevance 86400000 "q" (entryOfRow c2A) = 16 := by
    rw [calculateRelevance_eq]
    norm_num [entryOfRow, c2A, typeScores, max_def,
      show strContainsCI "x q y" "q" = true from by decide,
      show ("conversation" : String) ≠ "decision" from by decide,
      show ("conversation" : String) ≠ "pattern" from by decide]
  have hB : calculateRelevance 86400000 "q" (entryOfRow c2B) = 179 / 10 := by
    rw [calculateRelevance_eq]
    norm_num [entryOfRow, c2B, typeScores, max_def,
      show strContainsCI "q" "q" = true from by decide]
  rw [hA, hB] at h
  norm_num at h

/-- Claim C2 (amended): for every search call the returned list is
sorted in descending order of creation timestamp (newest first); in
particular any two results with equal relevance scores appear
newest-first, but the list is not ordered by relevance score. -/
theorem searchMemories_sorted_created_desc (s : Store) (q : Option String)
    (opts : SearchOptions) :
    (searchMemories s q opts).Pairwise (fun a b => b.created_at ≤ a.created_at) := by
  haveI : IsTotal MemoryRow createdDesc :=
    ⟨fun a b => Nat.le_total b.created_at a.created_at⟩
  haveI : IsTrans MemoryRow createdDesc :=
    ⟨fun a b c hab hbc => Nat.le_trans hbc hab⟩
  have hs : ((s.memories.filter (matchesWhere q opts)).insertionSort createdDesc).Pairwise
      createdDesc :=
    List.sorted_insertionSort createdDesc _
  unfold searchMemories
  rcases opts with ⟨t, lim, since⟩
  rcases lim with _ | n
  · exact hs
  · dsimp only
    by_cases h0 : n = 0
    · simpa [h0] using hs
    · rw [if_neg h0]
      unfold sqlLimit
      by_cases hneg : n < 0
      · simpa [hneg] using hs
      · rw [if_neg hneg]
        exact List.Pairwise.sublist (List.take_sublist _ _) hs

/-- Membership in a search result implies membership in the filtered
candidate set. -/
theorem mem_filter_of_mem_searchMemories {s : Store} {q : Option String}
    {opts : SearchOptions} {m : MemoryRow} (hm : m ∈ searchMemories s q opts) :
    m ∈ s.memories.filter (matchesWhere q opts) := by
  unfold searchMemories at hm
  rcases opts with ⟨t, lim, since⟩
  rcases lim with _ | n
  · exact (List.mem_insertionSort _).mp hm
  · dsimp only at hm
    by_cases h0 : n = 0
    · rw [if_pos h0] at hm
      exact (List.mem_insertionSort _).mp hm
    · rw [if_neg h0] at hm
      unfold sqlLimit at hm
      by_cases hneg : n < 0
      · rw [if_pos hneg] at hm
        exact (List.mem_insertionSort _).mp hm
      · rw [if_neg hneg] at hm
        exact (List.mem_insertionSort _).mp (List.take_subset _ _ hm)

/-- Claim C3 counterexample: supplying the empty string as the type
filter is falsy in JavaScript, so the `AND type = ?` clause is never
added and a memory of a different type is returned. -/
theorem searchMemories_empty_type_filter_cex :
    ¬ (∀ m ∈ searchMemories c3Store none
          { type := some "", limit := none, since := some 0 },
        m.type = "") := by
  decide

/-- Claim C3 (amended): for every search call whose type filter is a
non-empty string `t` and whose since-floor is `sv`, every returned
memory has type `t` and a creation timestamp at least `sv`. -/
theorem searchMemories_filter_conjunction (s : Store) (q : Option String) (t : String)
    (sv : Nat) (lim : Option Int) (ht : t ≠ "") :
    ∀ m ∈ searchMemories s q { type := some t, limit := lim, since := some sv },
      m.type = t ∧ sv ≤ m.created_at := by
  intro m hm
  have hw := (List.mem_filter.mp (mem_filter_of_mem_searchMemories hm)).2
  unfold matchesWhere at hw
  simp only [Bool.and_eq_true] at hw
  obtain ⟨⟨h1, _⟩, h3⟩ := hw
  refine ⟨?_, of_decide_eq_true h3⟩
  rw [if_neg ht] at h1
  exact eq_of_beq h1

/-- Witness for C3 on a concrete store with type filter `decision`. -/
theorem searchMemories_filter_conjunction_witness :
    ("decision" : String) ≠ "" ∧
    (∀ m ∈ searchMemories c3Store none
        { type := some "decision", limit := none, since := some 0 },
      m.type = "decision" ∧ 0 ≤ m.created_at) :=
  ⟨by decide, searchMemories_filter_conjunction c3Store none "decision" 0 none (by decide)⟩

/-- Claim C4 counterexample: a limit of `0` is falsy in JavaScript, so
no `LIMIT` clause is added and the call returns more rows than the
supplied limit. -/
theorem searchMemories_zero_limit_cex :
    ¬ ((searchMemories c4Store none
        { type := none, limit := some 0, since := none }).length ≤ (0 : Int).toNat) := by
  decide

/-- Claim C4 (amended): for every search call with a positive limit `n`
the result has at most `n` elements, and the `recall` command without a
limit flag defaults the limit to 10, so at most 10 memories are
returned.  (A zero limit is falsy and disables the clause; a negative
limit means no bound in SQLite.) -/
theorem searchMemories_limit_default :
    (∀ (s : Store) (q : Option String) (t : Option String) (sv : Option Nat) (n : Int),
        0 < n →
        (searchMemories s q { type := t, limit := some n, since := sv }).length ≤ n.toNat)
    ∧ (∀ (s : Store) (q : Option String) (t : Option String),
        (recallCmd s q t none).length ≤ 10) := by
  constructor
  · intro s q t sv n hn
    unfold searchMemories
    dsimp only
    rw [if_neg (by omega : ¬ n = 0)]
    unfold sqlLimit
    rw [if_neg (by omega : ¬ n < 0)]
    exact List.length_take_le _ _
  · intro s q t
    unfold recallCmd recallLimit searchMemories
    simp only [Option.getD_none]
    rw [if_neg (by norm_num : ¬ ((10 : Int) = 0))]
    unfold sqlLimit
    rw [if_neg (by norm_num : ¬ ((10 : Int) < 0))]
    exact List.length_take_le _ _

/-- Witness for C4 with limit 2 on a three-memory store. -/
theorem searchMemories_limit_default_witness :
    (0 : Int) < 2 ∧
    (searchMemories c4wStore none
      { type := none, limit := some 2, since := none }).length ≤ (2 : Int).toNat :=
  ⟨by decide, searchMemories_limit_default.1 c4wStore none none none 2 (by decide)⟩

/-- Claim C5 counterexample: on a concrete populated store, `clearMemory`
leaves the `projects` table untouched and deletes the pre-existing
Activity row, contradicting both halves of the claim. -/
theorem clearMemory_cex :
    (clearMemory c5Store 50).projects ≠ [] ∧ c5act ∉ (clearMemory c5Store 50).activities := by
  decide

/-- Claim C5 (amended): after `clearMemory`, the `memories`, `patterns`
and `files` tables are emptied, the `projects` table is left unchanged,
the previous Activity rows are deleted as well, and the activity log
then holds exactly the one newly appended `clear` row. -/
theorem clearMemory_state (s : Store) (now : Nat) :
    (clearMemory s now).projects = s.projects
    ∧ (clearMemory s now).memories = []
    ∧ (clearMemory s now).patterns = []
    ∧ (clearMemory s now).files = []
    ∧ (clearMemory s now).activities = [⟨"clear", "All memory data cleared", now⟩] :=
  ⟨rfl, rfl, rfl, rfl, rfl⟩

/-- Claim C6: evaluation at the failing input.  After a fresh
initialization and one stored memory, a second `initProject` without
`force` fails as claimed; but with `force := true` the call does not
destroy the data: `CREATE TABLE IF NOT EXISTS` keeps every row and the
fresh `INSERT INTO projects` hits the `UNIQUE(path)` constraint, so the
forced call fails with a storage error and the stored memory is still
present afterwards. -/
theorem initProject_force_keeps_data :
    (initProject c6w2 "/p" false "pid2" 300).1 = Except.error EngineError.alreadyInitialized
    ∧ (initProject c6w2 "/p" true "pid2" 300).1 = Except.error EngineError.storageError
    ∧ ((initProject c6w2 "/p" true "pid2" 300).2.store.getD emptyStore).memories
        = [⟨"mid", "decision", "use redis", none, 200, [], []⟩] :=
  ⟨rfl, rfl, rfl⟩

/-- Claim C7 counterexample: `storeMemory` performs no validation, so a
request with empty content writes a memory row instead of failing. -/
theorem storeMemory_empty_content_cex :
    (storeMemory emptyStore "id1"
        { type := "conversation", content := "", timestamp := 7 } 7).memories
      = [⟨"id1", "conversation", "", none, 7, [], []⟩]
    ∧ (storeMemory emptyStore "id1"
        { type := "conversation", content := "", timestamp := 7 } 7).memories ≠ [] := by
  constructor
  · rfl
  · decide

/-- Claim C7 (amended): `storeMemory` rejects nothing — every request,
empty content included, appends exactly one memory row carrying the
caller-supplied content, type, context and timestamp; the `remember`
command supplies the current time as that timestamp. -/
theorem storeMemory_no_validation :
    (∀ (s : Store) (newId : String) (inp : MemoryInput) (now : Nat),
      ∃ r, (storeMemory s newId inp now).memories = s.memories ++ [r]
        ∧ r.content = inp.content ∧ r.type = inp.type ∧ r.context = inp.context
        ∧ r.created_at = inp.timestamp)
    ∧ (∀ (s : Store) (newId t content : String) (ctx : Option String) (now : Nat),
      ∃ r, (rememberCmd s newId t content ctx now).memories = s.memories ++ [r]
        ∧ r.content = content ∧ r.created_at = now) :=
  ⟨fun _ _ _ _ => ⟨_, rfl, rfl, rfl, rfl, rfl⟩,
   fun _ _ _ _ _ _ => ⟨_, rfl, rfl, rfl⟩⟩

/-- `INSERT OR REPLACE` on an already-present key keeps the row count. -/
theorem length_upsertBy_of_hasKey (k : α → String) {rows : List α} {row : α}
    (h : hasKey k rows (k row) = true) :
    (upsertBy k rows row).length = rows.length := by
  unfold upsertBy
  unfold hasKey at h
  rw [if_pos h]
  exact List.length_map _ _

/-- `INSERT OR REPLACE` never removes a present key. -/
theorem hasKey_upsertBy (k : α → String) {rows : List α} {x : String}
    (h : hasKey k rows x = true) (row : α) :
    hasKey k (upsertBy k rows row) x = true := by
  unfold upsertBy
  unfold hasKey at h ⊢
  rw [List.any_eq_true] at h
  obtain ⟨r, hr, hkr⟩ := h
  by_cases hc : rows.any (fun r => k r == k row) = true
  · rw [if_pos hc, List.any_eq_true]
    refine ⟨if k r == k row then row else r, List.mem_map_of_mem _ hr, ?_⟩
    by_cases hrr : (k r == k row) = true
    · simp only [hrr, if_true]
      have h1 : k r = x := eq_of_beq hkr
      have h2 : k r = k row := eq_of_beq hrr
      rw [← h2, h1]
      exact beq_self_eq_true x
    · simp only [hrr, if_false]
      exact hkr
  · rw [if_neg hc, List.any_eq_true]
    exact ⟨r, List.mem_append_left _ hr, hkr⟩

/-- `INSERT OR REPLACE` makes its own key present. -/
theorem hasKey_upsertBy_self (k : α → String) (rows : List α) (row : α) :
    hasKey k (upsertBy k rows row) (k row) = true := by
  unfold upsertBy hasKey
  by_cases hc : rows.any (fun r => k r == k row) = true
  · rw [if_pos hc, List.any_eq_true]
    rw [List.any_eq_true] at hc
    obtain ⟨r, hr, hkr⟩ := hc
    exact ⟨if k r == k row then row else r, List.mem_map_of_mem _ hr,
      by simp only [hkr, if_true]; exact beq_self_eq_true _⟩
  · rw [if_neg hc, List.any_eq_true]
    exact ⟨row, List.mem_append_right _ (List.mem_singleton.mpr rfl), beq_self_eq_true _⟩

/-- A key present before a bulk upsert is present after it. -/
theorem hasKey_foldl_upsertBy (k : α → String) (B : List α) {rows : List α} {x : String}
    (h : hasKey k rows x = true) :
    hasKey k (B.foldl (upsertBy k) rows) x = true := by
  induction B generalizing rows with
  | nil => exact h
  | cons b B ih => exact ih (hasKey_upsertBy k h b)

/-- After a bulk upsert of a batch, every key of the batch is present. -/
theorem hasKey_foldl_upsertBy_mem (k : α → String) {B : List α} (rows : List α) {b : α}
    (hb : b ∈ B) :
    hasKey k (B.foldl (upsertBy k) rows) (k b) = true := by
  induction B generalizing rows with
  | nil => cases hb
  | cons c B ih =>
    rcases List.mem_cons.mp hb with rfl | hb
    · exact hasKey_foldl_upsertBy k B (hasKey_upsertBy_self k rows b)
    · exact ih (upsertBy k rows c) hb

/-- A bulk upsert whose keys are all already present keeps the row
count. -/
theorem length_foldl_upsertBy (k : α → String) (B : List α) (rows : List α)
    (h : ∀ b ∈ B, hasKey k rows (k b) = true) :
    (B.foldl (upsertBy k) rows).length = rows.length := by
  induction B generalizing rows with
  | nil => rfl
  | cons b B ih =>
    have h2 : ∀ c ∈ B, hasKey k (upsertBy k rows b) (k c) = true :=
      fun c hc => hasKey_upsertBy k (h c (List.mem_cons_of_mem _ hc)) b
    calc (B.foldl (upsertBy k) (upsertBy k rows b)).length
        = (upsertBy k rows b).length := ih _ h2
      _ = rows.length := length_upsertBy_of_hasKey k (h b (List.mem_cons_self _ _))

/-- Claim C8: ingesting the same scan batch twice in a row leaves the
`files` and `patterns` tables with the same row counts as ingesting it
once — each file is upserted by path and each pattern by id, so the
repeated batch replaces rather than duplicates rows. -/
theorem storeProjectAnalysis_idempotent (s : Store) (a : ProjectAnalysis) (p : String)
    (t1 t2 : Nat) :
    (storeProjectAnalysis (storeProjectAnalysis s a p t1) a p t2).files.length
      = (storeProjectAnalysis s a p t1).files.length
    ∧ (storeProjectAnalysis (storeProjectAnalysis s a p t1) a p t2).patterns.length
      = (storeProjectAnalysis s a p t1).patterns.length := by
  have hfile : (storeProjectAnalysis s a p t1).files
      = (a.files.map fileRowOf).foldl (upsertBy (fun r => r.path)) s.files := rfl
  have hpat : (storeProjectAnalysis s a p t1).patterns
      = (a.patterns.map patternRowOf).foldl (upsertBy (fun r => r.id)) s.patterns := rfl
  constructor
  · rw [show (storeProjectAnalysis (storeProjectAnalysis s a p t1) a p t2).files
        = (a.files.map fileRowOf).foldl (upsertBy (fun r => r.path))
            (storeProjectAnalysis s a p t1).files from rfl]
    exact length_foldl_upsertBy _ _ _ (fun b hb => by
      rw [hfile]
      exact hasKey_foldl_upsertBy_mem _ _ hb)
  · rw [show (storeProjectAnalysis (storeProjectAnalysis s a p t1) a p t2).patterns
        = (a.patterns.map patternRowOf).foldl (upsertBy (fun r => r.id))
            (storeProjectAnalysis s a p t1).patterns from rfl]
    exact length_foldl_upsertBy _ _ _ (fun b hb => by
      rw [hpat]
      exact hasKey_foldl_upsertBy_mem _ _ hb)

/-- Decoding inverts the serialization of one memory object on its
content, type and context fields. -/
theorem decodeMemoryFields_encodeMemory (m : MemoryRow) :
    decodeMemoryFields (encodeMemory m) = some (memoryFields m) := by
  rcases m with ⟨id, ty, co, ctx, ca, tg, md⟩
  cases ctx <;> rfl

/-- Decoding inverts the serialization of the whole memory array. -/
theorem decodeMemoriesList_map (ms : List MemoryRow) :
    decodeMemoriesList (ms.map encodeMemory) = some (ms.map memoryFields) := by
  induction ms with
  | nil => rfl
  | cons m ms ih =>
    show decodeMemoriesList (encodeMemory m :: ms.map encodeMemory) = _
    unfold decodeMemoriesList
    rw [decodeMemoryFields_encodeMemory, ih]
    rfl

/-- The memory entries parsed back from a serialized export. -/
theorem parseMemories_encodeExport (d : ExportData) :
    parseMemories (encodeExport d) = some (d.memories.map memoryFields) := by
  have hlook : lookupKey (encodeExport d) "memories"
      = some (Jx.arr (d.memories.map encodeMemory)) := rfl
  unfold parseMemories
  rw [hlook]
  exact decodeMemoriesList_map d.memories

/-- An unfiltered search returns a permutation of the memories table. -/
theorem searchMemories_all_perm (s : Store) :
    (searchMemories s none {}).Perm s.memories := by
  have hall : s.memories.filter (matchesWhere none {}) = s.memories :=
    List.filter_eq_self.mpr (fun a _ => rfl)
  unfold searchMemories
  dsimp only
  rw [hall]
  exact List.perm_insertionSort _ _

/-- Claim C9: for every store with a project row at path `p` holding `N`
memories, the structured export succeeds, its serialized form is a
single object with exactly the keys `project`, `memories`, `patterns`,
`files`, `exportedAt`, and parsing the serialized form back yields
exactly `N` entries whose content, type and context coincide (as a
multiset) with the stored memories. -/
theorem exportMemory_roundtrip (s : Store) (p : String) (now : Nat)
    (h : (s.projects.find? (fun pr => pr.path == p)).isSome = true) :
    ∃ d, exportMemory s p now = Except.ok d
      ∧ topKeys (encodeExport d) = ["project", "memories", "patterns", "files", "exportedAt"]
      ∧ parseMemories (encodeExport d) = some (d.memories.map memoryFields)
      ∧ (d.memories.map memoryFields).length = s.memories.length
      ∧ (d.memories.map memoryFields).Perm (s.memories.map memoryFields) := by
  rcases hfind : s.projects.find? (fun pr => pr.path == p) with _ | pr
  · rw [hfind] at h
    cases h
  · have hexp : exportMemory s p now = Except.ok
        { project :=
            { projectId := pr.id
              projectName := pr.name
              createdAt := pr.created_at
              lastActive := pr.last_active
              filesTracked := s.files.length
              conversations := (s.memories.filter (fun m => m.type == "conversation")).length
              patterns := s.patterns.length
              recentActivity := (s.activities.insertionSort createdDescAct).take 10 }
          memories := searchMemories s none {}
          patterns := s.patterns
          files := s.files
          exportedAt := now } := by
      unfold exportMemory getProjectStatus
      rw [hfind]
    refine ⟨_, hexp, rfl, parseMemories_encodeExport _, ?_, ?_⟩
    · show ((searchMemories s none {}).map memoryFields).length = s.memories.length
      rw [List.length_map]
      exact (searchMemories_all_perm s).length_eq
    · exact (searchMemories_all_perm s).map memoryFields

/-- Witness for C9 on a two-memory store. -/
theorem exportMemory_roundtrip_witness :
    (c9Store.projects.find? (fun pr => pr.path == "/p")).isSome = true
    ∧ (∃ d, exportMemory c9Store "/p" 9 = Except.ok d
        ∧ topKeys (encodeExport d)
            = ["project", "memories", "patterns", "files", "exportedAt"]
        ∧ parseMemories (encodeExport d) = some (d.memories.map memoryFields)
        ∧ (d.memories.map memoryFields).length = c9Store.memories.length
        ∧ (d.memories.map memoryFields).Perm (c9Store.memories.map memoryFields)) :=
  ⟨by decide, exportMemory_roundtrip c9Store "/p" 9 (by decide)⟩

/-- Claim C10: a successful `initProject` appends the `.codecontext/`
ignore entry to the project root's `.gitignore` exactly when that file
exists and does not already contain the substring `.codecontext`;
an absent `.gitignore` is not created and one that already mentions
`.codecontext` is left unchanged. -/
theorem initProject_gitignore (w : World) (p newId : String) (force : Bool) (now : Nat)
    (hok : (initProject w p force newId now).1 = Except.ok ()) :
    (w.gitignore = none → (initProject w p force newId now).2.gitignore = none)
    ∧ (∀ g, w.gitignore = some g → strContains g ".codecontext" = true →
        (initProject w p force newId now).2.gitignore = some g)
    ∧ (∀ g, w.gitignore = some g → strContains g ".codecontext" = false →
        (initProject w p force newId now).2.gitignore
          = some (g ++ "\n# CodeContext Memory\n.codecontext/\n")
        ∧ strContains "\n# CodeContext Memory\n.codecontext/\n" ".codecontext/" = true) := by
  unfold initProject at hok ⊢
  by_cases h1 : (!force && w.store.isSome) = true
  · rw [if_pos h1] at hok
    cases hok
  · rw [if_neg h1] at hok ⊢
    by_cases h2 : ((w.store.getD emptyStore).projects.any (fun pr => pr.path == p)) = true
    · rw [if_pos h2] at hok
      cases hok
    · rw [if_neg h2]
      refine ⟨?_, ?_, ?_⟩
      · intro hg
        simp [updateGitignore, hg]
      · intro g hg hc
        simp [updateGitignore, hg, hc]
      · intro g hg hc
        refine ⟨?_, by decide⟩
        simp [updateGitignore, hg, hc, gitignoreEntry]

/-- Witness for C10: initializing a fresh project whose root holds a
`.gitignore` without the marker appends the entry. -/
theorem initProject_gitignore_witness :
    (initProject ⟨none, some "node_modules"⟩ "/p" false "i1" 1).1 = Except.ok ()
    ∧ (initProject ⟨none, some "node_modules"⟩ "/p" false "i1" 1).2.gitignore
        = some ("node_modules" ++ "\n# CodeContext Memory\n.codecontext/\n") :=
  ⟨rfl, ((initProject_gitignore ⟨none, some "node_modules"⟩ "/p" "i1" false 1 rfl).2.2
      "node_modules" rfl (by decide)).1⟩

end CodeContext
